import Mathlib

/-
Verification of the study-snap-card flashcard application.

The embedding models, from the TypeScript sources:
  * ClaudeService.generateFlashcards (services/ClaudeService.ts): the
    response-processing pipeline after a successful HTTP call — regex
    extraction of a bracketed substring, JSON parsing (the JS builtin
    JSON.parse is abstracted as a `parse` parameter), the Array.isArray
    check, the validity filter, and the empty-result error.
  * FileUpload.handleUpload: which toast notice the upload flow shows for
    each outcome of generateFlashcards.
  * CreateCardForm.handleFileSelect / handleFileUpload: client-side file
    size/type validation and the upload guard.
  * StudyMode.nextCard / prevCard: index navigation with wraparound.
  * Flashcard.handleFlip: the flip toggle on the card view state.
  * Index.addCard / addCardsFromDocument: append-only card-list state.

Strings are modelled as `List Char` (JS strings are sequences of UTF-16
code units; the claims only involve code points where the two coincide).
-/

namespace StudySnap

/-- JSON values as produced by the JS builtin JSON.parse.  Object fields
carry unique keys (JSON.parse keeps the last duplicate, yielding an object
with distinct keys); numbers are modelled as integers since no claim
depends on numeric values. -/
inductive Json where
  | null : Json
  | bool (b : Bool) : Json
  | num (n : Int) : Json
  | str (s : List Char) : Json
  | arr (elems : List Json) : Json
  | obj (fields : List (List Char × Json)) : Json

/-- JS String.prototype.trim, modelled on character lists: strip leading
and trailing whitespace (the JS whitespace set restricted to the
characters relevant here). -/
def jsTrim (s : List Char) : List Char :=
  ((s.dropWhile Char.isWhitespace).reverse.dropWhile Char.isWhitespace).reverse

/-- JS property access `card.front` on a parsed JSON object: look the key
up among the object's fields. -/
def getField (fields : List (List Char × Json)) (key : List Char) : Option Json :=
  (fields.find? (fun p => p.1 == key)).map (fun p => p.2)

/-- The filter predicate of ClaudeService.generateFlashcards (lines
155-162): `card && typeof card === 'object' && typeof card.front ===
'string' && typeof card.back === 'string' && card.front.trim() !== '' &&
card.back.trim() !== ''`.  Only a non-null JSON object can pass (`null` is
falsy; arrays have typeof object but no `front`/`back` string
properties), and both fields must be strings that are non-empty after
trimming. -/
def isValidCard : Json → Bool
  | Json.obj fields =>
      match getField fields ("front".data), getField fields ("back".data) with
      | some (Json.str f), some (Json.str b) =>
          !(jsTrim f).isEmpty && !(jsTrim b).isEmpty
      | _, _ => false
  | _ => false

/-- The regex extraction `content_text.match(/\[[\s\S]*\]/)` (line 143).
The pattern has no anchors; JS match semantics are leftmost then greedy:
the match starts at the first position where the pattern can match — the
first bracket-open character, provided a bracket-close character occurs
later — and `[\s\S]*` being greedy extends the match to the last
bracket-close character of the string.  Computed as: drop up to the first
bracket-open, then cut after the last bracket-close; empty result means
no match. -/
def extractBracket (s : List Char) : Option (List Char) :=
  let rest := s.dropWhile (fun c => c != '[')
  let m := (rest.reverse.dropWhile (fun c => c != ']')).reverse
  if m.isEmpty then none else some m

/-- Modelled from the claim's words (C2), for comparison with
`extractBracket`: the bracketed substring starting at the first
bracket-open character and ending at the earliest bracket-close character
after it. -/
def claimExtract (s : List Char) : Option (List Char) :=
  match s.dropWhile (fun c => c != '[') with
  | [] => none
  | op :: rest =>
      if rest.contains ']' then
        some (op :: (rest.takeWhile (fun c => c != ']') ++ [ ']' ]))
      else none

/-- Lines 148-168 of ClaudeService.generateFlashcards applied to the
parsed JSON value: the Array.isArray check, the validity filter, and the
empty-result error.  On success the surviving entries are returned
unchanged, in order. -/
def validateParsed : Json → Except (List Char) (List Json)
  | Json.arr cards =>
      let valid := cards.filter isValidCard
      if valid.isEmpty then Except.error ("No valid flashcards found in response".data)
      else Except.ok valid
  | _ => Except.error ("Response is not a valid flashcard array".data)

/-- JSON.parse of the extracted substring followed by validation.  The JS
builtin JSON.parse is abstracted as the `parse` parameter (`none` models a
SyntaxError being thrown, which the catch block rethrows). -/
def parseAndValidate (parse : List Char → Option Json) (m : List Char) :
    Except (List Char) (List Json) :=
  (parse m).elim (Except.error ("JSON parse SyntaxError".data)) validateParsed

/-- ClaudeService.generateFlashcards from the model reply text
`content_text` onward (lines 142-168): extract the bracketed substring,
parse it, validate.  `Except.error` models a thrown Error carrying the
given message. -/
def generateFlashcards (parse : List Char → Option Json) (content_text : List Char) :
    Except (List Char) (List Json) :=
  (extractBracket content_text).elim
    (Except.error ("Could not find valid JSON in Claude response".data))
    (parseAndValidate parse)

/-- A toast notice as raised by the upload flow: title, description, and
whether the destructive variant was used. -/
structure Toast where
  title : List Char
  description : List Char
  destructive : Bool

/-- The toast FileUpload.handleUpload (lines 63-93) shows for a given
outcome of generateFlashcards: on a returned list the success toast when
it is non-empty and the no-cards-generated notice otherwise; on a thrown
Error the processing-failed toast carrying the error's message. -/
def uploadToast : Except (List Char) (List Json) → Toast
  | Except.ok cards =>
      if cards.length > 0 then
        { title := "Success!".data,
          description := ("Generated ".data ++ (Nat.repr cards.length).data
            ++ " flashcards from your document".data),
          destructive := false }
      else
        { title := "No cards generated".data,
          description := "Could not extract questions and answers from the document".data,
          destructive := true }
  | Except.error msg =>
      { title := "Processing failed".data, description := msg, destructive := true }

/-- FileUpload.handleUpload reduced to the toast it shows for the reply
text: run generateFlashcards and dispatch on its outcome. -/
def handleUploadOutcome (parse : List Char → Option Json) (content_text : List Char) : Toast :=
  uploadToast (generateFlashcards parse content_text)

/-- A browser File object as seen by CreateCardForm: name, size in bytes,
and MIME type. -/
structure JsFile where
  name : List Char
  size : Nat
  mimeType : List Char

/-- The 5MB size cap of CreateCardForm.handleFileSelect (line 39). -/
def maxFileSize : Nat := 5 * 1024 * 1024

/-- The accepted MIME types of CreateCardForm.handleFileSelect (line 50). -/
def allowedTypes : List (List Char) :=
  [ "text/plain".data,
    "application/pdf".data,
    "application/msword".data,
    "application/vnd.openxmlformats-officedocument.wordprocessingml.document".data ]

/-- CreateCardForm.handleFileSelect (lines 35-62) on a chosen file: a file
over the size cap, or of a type not in the allowed list, is rejected — the
handler returns early and `selectedFile` keeps its previous value;
otherwise the file becomes the selection. -/
def handleFileSelect (selectedFile : Option JsFile) (file : JsFile) : Option JsFile :=
  if file.size > maxFileSize then selectedFile
  else if file.mimeType ∈ allowedTypes then some file
  else selectedFile

/-- CreateCardForm.handleFileUpload (lines 64-77) reduced to the file the
network request is made with: `none` when no file is selected (the guard
`if (!selectedFile) return` fires and no request happens), otherwise the
selected file is posted. -/
def uploadRequestFile (selectedFile : Option JsFile) : Option JsFile :=
  match selectedFile with
  | none => none
  | some f => some f

/-- StudyMode.nextCard (line 43): `(prev + 1) % cards.length`.  JS `%` is
the remainder with the dividend's sign; on the non-negative operands
arising here it agrees with `Int.emod`. -/
def nextIndex (len i : Int) : Int := (i + 1) % len

/-- StudyMode.prevCard (line 47): `(prev - 1 + cards.length) %
cards.length`.  The addition of the length happens before the remainder,
so the left operand is non-negative whenever the index is in range and JS
`%` agrees with `Int.emod`. -/
def prevIndex (len i : Int) : Int := (i - 1 + len) % len

/-- The Flashcard component's view state: the `front` and `back` props and
the `isFlipped` useState boolean. -/
structure FlashcardView where
  front : List Char
  back : List Char
  isFlipped : Bool

/-- Flashcard.handleFlip (lines 14-16): `setIsFlipped(!isFlipped)` — the
props are untouched. -/
def handleFlip (s : FlashcardView) : FlashcardView :=
  { front := s.front, back := s.back, isFlipped := !s.isFlipped }

/-- The Index page's mode useState. -/
inductive Mode where
  | study : Mode
  | create : Mode

/-- A client-side card of the Index page: ephemeral id plus front and back
texts. -/
structure FlashcardData where
  id : List Char
  front : List Char
  back : List Char

/-- The Index page's state: the card list and the current mode. -/
structure IndexState where
  cards : List FlashcardData
  mode : Mode

/-- Index.addCard (lines 90-98): build a card whose id is
`Date.now().toString()` (the clock reading is the `now` parameter), append
it with `[...cards, newCard]`, and switch to study mode. -/
def addCard (now : List Char) (front back : List Char) (s : IndexState) : IndexState :=
  { cards := s.cards ++ [ { id := now, front := front, back := back } ],
    mode := Mode.study }

/-- Index.addCardsFromDocument (lines 100-108): give each incoming
front/back pair the id `` `${Date.now()}-${index}` `` and append them all
with `[...prevCards, ...cardsWithIds]`, then switch to study mode. -/
def addCardsFromDocument (now : List Char) (newCards : List (List Char × List Char))
    (s : IndexState) : IndexState :=
  { cards := s.cards ++ newCards.enum.map
      (fun p => { id := now ++ ( '-' :: (Nat.repr p.1).data),
                  front := p.2.1, back := p.2.2 }),
    mode := Mode.study }

/-- The operations of the Index page that touch its state: the two
card-adding handlers and the mode switch of the header button. -/
inductive ClientOp where
  | add (now front back : List Char) : ClientOp
  | addFromDoc (now : List Char) (newCards : List (List Char × List Char)) : ClientOp
  | switchMode (m : Mode) : ClientOp

/-- Apply one Index-page operation to the page state. -/
def applyOp : ClientOp → IndexState → IndexState
  | ClientOp.add now f b, s => addCard now f b s
  | ClientOp.addFromDoc now ncs, s => addCardsFromDocument now ncs s
  | ClientOp.switchMode m, s => { cards := s.cards, mode := m }

/-- Apply a sequence of Index-page operations in order. -/
def applyOps (ops : List ClientOp) (s : IndexState) : IndexState :=
  ops.foldl (fun t o => applyOp o t) s

/-- A concrete valid flashcard entry, used to instantiate theorems. -/
def goodCard : Json :=
  Json.obj [ ("front".data, Json.str ("Q".data)), ("back".data, Json.str ("A".data)) ]

/-- A concrete invalid flashcard entry (its back is blank after
trimming), used to instantiate theorems. -/
def badCard : Json :=
  Json.obj [ ("front".data, Json.str ("Q".data)), ("back".data, Json.str (" ".data)) ]

/-- A concrete stand-in for JSON.parse that parses the two-entry array
reply used in instantiations. -/
def parseTwo : List Char → Option Json :=
  fun m => if m = "[x]".data then some (Json.arr [ goodCard, badCard ]) else none

/-- A concrete stand-in for JSON.parse that parses every input as the
empty JSON array. -/
def parseEmptyArr : List Char → Option Json :=
  fun _ => some (Json.arr [])

/-- A concrete stand-in for JSON.parse that fails on every input. -/
def parseNone : List Char → Option Json :=
  fun _ => none

/-- A concrete file over the 5MB cap, used to instantiate theorems. -/
def bigFile : JsFile :=
  { name := "big.txt".data, size := 6 * 1024 * 1024, mimeType := "text/plain".data }

/-- A concrete file of exactly 5MB with an accepted MIME type, used to
instantiate theorems. -/
def fiveMbFile : JsFile :=
  { name := "edge.txt".data, size := 5 * 1024 * 1024, mimeType := "text/plain".data }

/-- Shared helper: dropWhile skips a leading block whose elements all
satisfy the predicate. -/
theorem dropWhile_eq_of_forall {α : Type} (p : α → Bool) (a l : List α)
    (h : ∀ x ∈ a, p x = true) : (a ++ l).dropWhile p = l.dropWhile p := by
  induction a with
  | nil => rfl
  | cons y ys ih =>
      rw [List.cons_append, List.dropWhile_cons_of_pos (h y (by simp))]
      exact ih (fun x hx => h x (by simp [hx]))

/-- Shared helper: the regex extraction on a string decomposed around its
first bracket-open and last bracket-close characters spans exactly that
range. -/
theorem extractBracket_decomp (a b c : List Char)
    (ha : ( '[' ) ∉ a) (hc : ( ']' ) ∉ c) :
    extractBracket (a ++ ( '[' :: (b ++ ( ']' :: c)))) =
      some ( '[' :: (b ++ [ ']' ])) := by
  have hrest : (a ++ ( '[' :: (b ++ ( ']' :: c)))).dropWhile (fun x => x != '[') =
      '[' :: (b ++ ( ']' :: c)) := by
    rw [dropWhile_eq_of_forall _ a _ (by intro x hx; simp; intro h; exact ha (h ▸ hx))]
    exact List.dropWhile_cons_of_neg (by simp)
  have hrev : ( '[' :: (b ++ ( ']' :: c))).reverse =
      c.reverse ++ ( ']' :: (b.reverse ++ [ '[' ])) := by
    simp
  have hm : (( '[' :: (b ++ ( ']' :: c))).reverse.dropWhile (fun x => x != ']')).reverse =
      '[' :: (b ++ [ ']' ]) := by
    rw [hrev, dropWhile_eq_of_forall _ c.reverse _
      (by intro x hx; simp; intro h; exact hc (h ▸ (List.mem_reverse.mp hx))),
      List.dropWhile_cons_of_neg (by simp)]
    simp
  simp only [extractBracket, hrest, hm]
  simp

/-- Shared helper: when extraction and parsing yield an array, the result
of generateFlashcards is the validity filter of that array, provided some
entry survives. -/
theorem generateFlashcards_eq_ok (parse : List Char → Option Json)
    (reply m : List Char) (arr : List Json)
    (hm : extractBracket reply = some m) (hp : parse m = some (Json.arr arr))
    (hne : (arr.filter isValidCard).isEmpty = false) :
    generateFlashcards parse reply = Except.ok (arr.filter isValidCard) := by
  simp only [generateFlashcards, hm, Option.elim, parseAndValidate, hp, validateParsed, hne]
  simp

/-- Shared helper: when extraction and parsing yield an array in which no
entry survives the validity filter, generateFlashcards throws the
no-valid-flashcards error. -/
theorem generateFlashcards_eq_error (parse : List Char → Option Json)
    (reply m : List Char) (arr : List Json)
    (hm : extractBracket reply = some m) (hp : parse m = some (Json.arr arr))
    (hz : arr.filter isValidCard = []) :
    generateFlashcards parse reply =
      Except.error ("No valid flashcards found in response".data) := by
  simp only [generateFlashcards, hm, Option.elim, parseAndValidate, hp, validateParsed, hz]
  simp

/-- Shared helper: every list generateFlashcards returns is non-empty. -/
theorem generateFlashcards_ok_ne_nil (parse : List Char → Option Json)
    (reply : List Char) (res : List Json)
    (hok : generateFlashcards parse reply = Except.ok res) : res ≠ [] := by
  rcases hE : extractBracket reply with _ | m
  · rw [generateFlashcards, hE] at hok
    simp [Option.elim] at hok
  · rw [generateFlashcards, hE] at hok
    simp only [Option.elim, parseAndValidate] at hok
    rcases hP : parse m with _ | j
    · rw [hP] at hok
      simp [Option.elim] at hok
    · rw [hP] at hok
      simp only [Option.elim] at hok
      cases j with
      | arr elems =>
          simp only [validateParsed] at hok
          by_cases hE2 : (elems.filter isValidCard).isEmpty
          · simp [hE2] at hok
          · simp only [hE2, if_false, Bool.false_eq_true, if_neg] at hok
            have h3 := Except.ok.inj hok
            intro hnil
            rw [← h3] at hnil
            exact (List.isEmpty_eq_false.mp (Bool.eq_false_iff.mpr hE2)) hnil
      | null => simp [validateParsed] at hok
      | bool b => simp [validateParsed] at hok
      | num n => simp [validateParsed] at hok
      | str t => simp [validateParsed] at hok
      | obj fields => simp [validateParsed] at hok

/-- C1: for every model reply whose extracted array contains exactly N
valid entries (objects whose front and back are strings that are non-empty
after trimming, with N at least one so that the call succeeds),
ClaudeService.generateFlashcards returns exactly those N cards in their
original order — the validity filter of the parsed array — and every entry
of the result passes the validity predicate, so entries missing a
non-empty string front or back are dropped. -/
theorem generateFlashcards_returns_valid_entries (parse : List Char → Option Json)
    (reply m : List Char) (arr : List Json) (N : Nat)
    (hm : extractBracket reply = some m) (hp : parse m = some (Json.arr arr))
    (hN : (arr.filter isValidCard).length = N) (hpos : 0 < N) :
    generateFlashcards parse reply = Except.ok (arr.filter isValidCard) ∧
    (arr.filter isValidCard).length = N ∧
    ∀ e ∈ arr.filter isValidCard, isValidCard e = true := by
  have hne : (arr.filter isValidCard).isEmpty = false := by
    rw [List.isEmpty_eq_false]
    intro h
    rw [h] at hN
    simp at hN
    omega
  exact ⟨generateFlashcards_eq_ok parse reply m arr hm hp hne, hN,
    fun e he => List.of_mem_filter he⟩

/-- Witness for C1 at a concrete reply: the parsed array holds one valid
and one invalid entry; exactly the valid one is returned. -/
theorem generateFlashcards_returns_valid_entries_witness :
    generateFlashcards parseTwo ("z[x]".data) =
      Except.ok ([ goodCard, badCard ].filter isValidCard) ∧
    ([ goodCard, badCard ].filter isValidCard).length = 1 ∧
    ∀ e ∈ [ goodCard, badCard ].filter isValidCard, isValidCard e = true :=
  generateFlashcards_returns_valid_entries parseTwo ("z[x]".data) ("[x]".data)
    [ goodCard, badCard ] 1 (by rfl) (by rfl) (by rfl) (by decide)

/-- C2 counterexample: on the reply whose characters are bracket-open, a,
bracket-close, x, bracket-close, the code's greedy extraction returns the
whole five-character string (first bracket-open to last bracket-close),
while the claim's earliest-matching-close extraction returns only the
first three characters — so the claim, as stated, is false at this
input. -/
theorem extractBracket_not_earliest_close :
    extractBracket ("[a]x]".data) = some ("[a]x]".data) ∧
    claimExtract ("[a]x]".data) = some ("[a]".data) ∧
    extractBracket ("[a]x]".data) ≠ claimExtract ("[a]x]".data) := by
  refine ⟨by rfl, by rfl, by decide⟩

/-- C2 amended: for every model reply containing a bracket-open character
followed later by a bracket-close character, the parser extracts the
substring starting at the first bracket-open and ending at the last
bracket-close of the reply (the regex is greedy), and attempts to parse
exactly that substring as the flashcard array. -/
theorem extractBracket_first_open_to_last_close (parse : List Char → Option Json)
    (a b c : List Char) (ha : ( '[' ) ∉ a) (hc : ( ']' ) ∉ c) :
    extractBracket (a ++ ( '[' :: (b ++ ( ']' :: c)))) =
      some ( '[' :: (b ++ [ ']' ])) ∧
    generateFlashcards parse (a ++ ( '[' :: (b ++ ( ']' :: c)))) =
      parseAndValidate parse ( '[' :: (b ++ [ ']' ])) := by
  have h := extractBracket_decomp a b c ha hc
  exact ⟨h, by rw [generateFlashcards, h]; rfl⟩

/-- Witness for the amended C2 at a concrete reply: x, bracket-open, a,
bracket-close, bracket-close, y — extraction spans from the bracket-open
to the second (last) bracket-close. -/
theorem extractBracket_first_open_to_last_close_witness :
    extractBracket ([ 'x' ] ++ ( '[' :: ([ 'a', ']' ] ++ ( ']' :: [ 'y' ])))) =
      some ( '[' :: ([ 'a', ']' ] ++ [ ']' ])) ∧
    generateFlashcards parseNone ([ 'x' ] ++ ( '[' :: ([ 'a', ']' ] ++ ( ']' :: [ 'y' ])))) =
      parseAndValidate parseNone ( '[' :: ([ 'a', ']' ] ++ [ ']' ])) :=
  extractBracket_first_open_to_last_close parseNone [ 'x' ] [ 'a', ']' ] [ 'y' ]
    (by decide) (by decide)

/-- C5: when zero valid flashcard entries survive the filter,
ClaudeService.generateFlashcards raises the generic no-valid-flashcards
error rather than returning an empty list; and on no input whatsoever does
it return an empty array. -/
theorem generateFlashcards_zero_valid_raises (parse : List Char → Option Json)
    (reply m : List Char) (arr : List Json)
    (hm : extractBracket reply = some m) (hp : parse m = some (Json.arr arr))
    (hz : arr.filter isValidCard = []) :
    generateFlashcards parse reply =
      Except.error ("No valid flashcards found in response".data) ∧
    ∀ (q : List Char → Option Json) (r : List Char) (res : List Json),
      generateFlashcards q r = Except.ok res → res ≠ [] :=
  ⟨generateFlashcards_eq_error parse reply m arr hm hp hz,
    fun q r res hok => generateFlashcards_ok_ne_nil q r res hok⟩

/-- Witness for C5 at a concrete reply parsed as the empty array: the
filter finds no valid entry and the error is thrown. -/
theorem generateFlashcards_zero_valid_raises_witness :
    generateFlashcards parseEmptyArr ("[]".data) =
      Except.error ("No valid flashcards found in response".data) ∧
    ∀ (q : List Char → Option Json) (r : List Char) (res : List Json),
      generateFlashcards q r = Except.ok res → res ≠ [] :=
  generateFlashcards_zero_valid_raises parseEmptyArr ("[]".data) ("[]".data) []
    (by rfl) (by rfl) (by rfl)

/-- C6 counterexample: on a reply parsed as the empty array — the
empty-result condition — the upload flow shows the processing-failed
toast, not the no-cards-generated notice, because generateFlashcards
throws instead of returning an empty list. -/
theorem noCards_notice_not_shown :
    (handleUploadOutcome parseEmptyArr ("[]".data)).title = "Processing failed".data ∧
    (handleUploadOutcome parseEmptyArr ("[]".data)).title ≠ "No cards generated".data := by
  refine ⟨by rfl, by decide⟩

/-- C6 amended: when the model returned nothing usable (zero valid entries
after filtering), the upload flow surfaces the user-visible destructive
"Processing failed" notice carrying the no-valid-flashcards error message;
the "No cards generated" notice present in the code is unreachable — on no
input does the upload flow ever show it. -/
theorem emptyResult_surfaces_processing_failed (parse : List Char → Option Json)
    (reply m : List Char) (arr : List Json)
    (hm : extractBracket reply = some m) (hp : parse m = some (Json.arr arr))
    (hz : arr.filter isValidCard = []) :
    handleUploadOutcome parse reply =
      { title := "Processing failed".data,
        description := "No valid flashcards found in response".data,
        destructive := true } ∧
    ∀ (q : List Char → Option Json) (r : List Char),
      (handleUploadOutcome q r).title ≠ "No cards generated".data := by
  constructor
  · rw [handleUploadOutcome, generateFlashcards_eq_error parse reply m arr hm hp hz]
    rfl
  · intro q r
    rcases hG : generateFlashcards q r with msg | cards
    · rw [handleUploadOutcome, hG]
      simp [uploadToast]
    · rw [handleUploadOutcome, hG]
      have hpos : cards.length > 0 :=
        List.length_pos.mpr (generateFlashcards_ok_ne_nil q r cards hG)
      simp only [uploadToast, if_pos hpos]
      simp

/-- Witness for the amended C6 at a concrete reply parsed as the empty
array. -/
theorem emptyResult_surfaces_processing_failed_witness :
    handleUploadOutcome parseEmptyArr ("znp[]".data) =
      { title := "Processing failed".data,
        description := "No valid flashcards found in response".data,
        destructive := true } ∧
    ∀ (q : List Char → Option Json) (r : List Char),
      (handleUploadOutcome q r).title ≠ "No cards generated".data :=
  emptyResult_surfaces_processing_failed parseEmptyArr ("znp[]".data) ("[]".data) []
    (by rfl) (by rfl) (by rfl)

/-- C3: for every positive length and every in-range index, nextCard moves
to the successor index modulo the length — advancing past the last card
wraps to index zero, otherwise it increments — and prevCard moves to the
predecessor index modulo the length — retreating before index zero wraps
to the last index, otherwise it decrements — and both results stay in
range. -/
theorem card_navigation_wraps (len i : Int) (hlen : 0 < len)
    (h0 : 0 ≤ i) (hi : i < len) :
    nextIndex len i = (i + 1) % len ∧
    prevIndex len i = (i - 1 + len) % len ∧
    (i = len - 1 → nextIndex len i = 0) ∧
    (i + 1 < len → nextIndex len i = i + 1) ∧
    (i = 0 → prevIndex len i = len - 1) ∧
    (0 < i → prevIndex len i = i - 1) ∧
    0 ≤ nextIndex len i ∧ nextIndex len i < len ∧
    0 ≤ prevIndex len i ∧ prevIndex len i < len := by
  refine ⟨rfl, rfl, ?_, ?_, ?_, ?_,
    by rw [nextIndex]; exact Int.emod_nonneg _ (by omega),
    by rw [nextIndex]; exact Int.emod_lt_of_pos _ hlen,
    by rw [prevIndex]; exact Int.emod_nonneg _ (by omega),
    by rw [prevIndex]; exact Int.emod_lt_of_pos _ hlen⟩
  · intro h
    subst h
    rw [nextIndex]
    simp
  · intro h
    rw [nextIndex]
    exact Int.emod_eq_of_lt (by omega) h
  · intro h
    subst h
    rw [prevIndex, show (0 : Int) - 1 + len = len - 1 by ring]
    exact Int.emod_eq_of_lt (by omega) (by omega)
  · intro h
    rw [prevIndex, show i - 1 + len = i - 1 + len * 1 by ring,
      Int.add_mul_emod_self_left]
    exact Int.emod_eq_of_lt (by omega) (by omega)

/-- Witness for C3 at length three and index zero: next goes to one, prev
wraps to the last index, two. -/
theorem card_navigation_wraps_witness :
    nextIndex 3 0 = (0 + 1) % 3 ∧
    prevIndex 3 0 = (0 - 1 + 3) % 3 ∧
    ((0 : Int) = 3 - 1 → nextIndex 3 0 = 0) ∧
    ((0 : Int) + 1 < 3 → nextIndex 3 0 = 0 + 1) ∧
    ((0 : Int) = 0 → prevIndex 3 0 = 3 - 1) ∧
    ((0 : Int) < 0 → prevIndex 3 0 = 0 - 1) ∧
    0 ≤ nextIndex 3 0 ∧ nextIndex 3 0 < 3 ∧
    0 ≤ prevIndex 3 0 ∧ prevIndex 3 0 < 3 :=
  card_navigation_wraps 3 0 (by decide) (by decide) (by decide)

/-- C4: a file over the 5MB cap or of a MIME type outside the allowed list
is rejected at selection time — selectedFile stays null — and consequently
the upload handler makes no network request for it. -/
theorem rejected_file_never_uploaded (f : JsFile)
    (h : f.size > maxFileSize ∨ f.mimeType ∉ allowedTypes) :
    handleFileSelect none f = none ∧
    uploadRequestFile (handleFileSelect none f) = none := by
  have hsel : handleFileSelect none f = none := by
    rw [handleFileSelect]
    rcases h with h | h
    · rw [if_pos h]
    · by_cases hs : f.size > maxFileSize
      · rw [if_pos hs]
      · rw [if_neg hs, if_neg h]
  exact ⟨hsel, by rw [hsel]; rfl⟩

/-- Witness for C4 at a concrete 6MB file: it is rejected and never
uploaded. -/
theorem rejected_file_never_uploaded_witness :
    handleFileSelect none bigFile = none ∧
    uploadRequestFile (handleFileSelect none bigFile) = none :=
  rejected_file_never_uploaded bigFile (Or.inl (by decide))

/-- C9: a file whose size is exactly 5MB with an accepted MIME type passes
selection validation, and for files of an accepted type the selection is
rejected exactly when the size strictly exceeds the 5MB cap. -/
theorem five_mb_file_accepted (f : JsFile) (htype : f.mimeType ∈ allowedTypes) :
    (f.size = maxFileSize → handleFileSelect none f = some f) ∧
    (handleFileSelect none f = none ↔ f.size > maxFileSize) := by
  constructor
  · intro h
    rw [handleFileSelect, if_neg (by omega), if_pos htype]
  · rw [handleFileSelect]
    by_cases hs : f.size > maxFileSize
    · simp [hs]
    · simp [hs, htype]

/-- Witness for C9 at a concrete 5MB plain-text file: it is accepted. -/
theorem five_mb_file_accepted_witness :
    (fiveMbFile.size = maxFileSize → handleFileSelect none fiveMbFile = some fiveMbFile) ∧
    (handleFileSelect none fiveMbFile = none ↔ fiveMbFile.size > maxFileSize) :=
  five_mb_file_accepted fiveMbFile (by decide)

/-- C7: flipping a card toggles only the isFlipped display boolean —
flipping twice restores the original display state — and leaves the
underlying front and back texts unchanged. -/
theorem flip_toggles_display_only (s : FlashcardView) :
    (handleFlip s).isFlipped = !s.isFlipped ∧
    handleFlip (handleFlip s) = s ∧
    (handleFlip s).front = s.front ∧
    (handleFlip s).back = s.back := by
  refine ⟨rfl, ?_, rfl, rfl⟩
  cases s
  simp [handleFlip]

/-- C8: addCard appends exactly one card carrying the given front and back
at the end of the list, addCardsFromDocument appends the given cards at
the end in their given order, previously present cards are unchanged and
in place, and both handlers switch the mode to study. -/
theorem add_handlers_append (now f b : List Char)
    (ncs : List (List Char × List Char)) (s : IndexState) :
    (addCard now f b s).cards.take s.cards.length = s.cards ∧
    (addCard now f b s).cards.length = s.cards.length + 1 ∧
    ((addCard now f b s).cards.drop s.cards.length).map
      (fun c => (c.front, c.back)) = [ (f, b) ] ∧
    (addCard now f b s).mode = Mode.study ∧
    (addCardsFromDocument now ncs s).cards.take s.cards.length = s.cards ∧
    ((addCardsFromDocument now ncs s).cards.drop s.cards.length).map
      (fun c => (c.front, c.back)) = ncs ∧
    (addCardsFromDocument now ncs s).mode = Mode.study := by
  refine ⟨List.take_left _ _, by simp [addCard], ?_, rfl, List.take_left _ _, ?_, rfl⟩
  · rw [addCard]
    simp only [List.drop_left]
    rfl
  · rw [addCardsFromDocument]
    simp only [List.drop_left, List.map_map]
    exact List.enum_map_snd ncs

/-- Shared helper: one Index-page operation keeps every existing card in
place and never shortens the list. -/
theorem applyOp_cards_extend (op : ClientOp) (s : IndexState) :
    (applyOp op s).cards.take s.cards.length = s.cards ∧
    s.cards.length ≤ (applyOp op s).cards.length := by
  cases op with
  | add now f b => exact ⟨List.take_left _ _, by simp [applyOp, addCard]⟩
  | addFromDoc now ncs => exact ⟨List.take_left _ _, by simp [applyOp, addCardsFromDocument]⟩
  | switchMode m => exact ⟨List.take_length _, le_refl _⟩

/-- C10: the client-side card list is append-only — each state operation
(addCard, addCardsFromDocument, and the mode switch, which does not touch
the list) leaves every existing card unmodified and in place and never
decreases the list's length, and likewise any finite sequence of such
operations. -/
theorem card_list_append_only (op : ClientOp) (ops : List ClientOp) (s : IndexState) :
    ((applyOp op s).cards.take s.cards.length = s.cards ∧
      s.cards.length ≤ (applyOp op s).cards.length) ∧
    ((applyOps ops s).cards.take s.cards.length = s.cards ∧
      s.cards.length ≤ (applyOps ops s).cards.length) := by
  refine ⟨applyOp_cards_extend op s, ?_⟩
  induction ops generalizing s with
  | nil => exact ⟨List.take_length _, le_refl _⟩
  | cons o rest ih =>
      have h1 := applyOp_cards_extend o s
      have h2 := ih (applyOp o s)
      have hstep : applyOps (o :: rest) s = applyOps rest (applyOp o s) := rfl
      rw [hstep]
      constructor
      · calc (applyOps rest (applyOp o s)).cards.take s.cards.length
            = ((applyOps rest (applyOp o s)).cards.take
                (applyOp o s).cards.length).take s.cards.length := by
              rw [List.take_take, min_eq_left h1.2]
          _ = (applyOp o s).cards.take s.cards.length := by rw [h2.1]
          _ = s.cards := h1.1
      · exact le_trans h1.2 h2.2

end StudySnap
